import Mathlib

/-!
Verification of the imdb-trakt-sync IMDb client (`pkg/client/imdb.go`).

The Go source is shallowly embedded: pure helpers become Lean functions on
`List Char` / `String`, the HTTP layer is modelled by a response environment
(`ImdbWorld`), and every fallible Go function returns a `GoResult` that
distinguishes a returned value, a returned `error`, and a runtime panic
(Go's out-of-range slice access).
-/

/-! ## Character-level helpers

`unicode.IsSpace` (used by `strings.Fields` and `strings.TrimSpace`): the
white-space code points of Unicode as hard-coded in Go's `unicode` tables. -/

def goIsSpace (c : Char) : Bool :=
  decide ((9 ≤ c.toNat ∧ c.toNat ≤ 13) ∨ c.toNat = 32 ∨ c.toNat = 133 ∨ c.toNat = 160 ∨
    c.toNat = 5760 ∨ (8192 ≤ c.toNat ∧ c.toNat ≤ 8202) ∨ c.toNat = 8232 ∨ c.toNat = 8233 ∨
    c.toNat = 8239 ∨ c.toNat = 8287 ∨ c.toNat = 12288)

/-- `unicode.ToLower` (used by `strings.ToLower`), restricted to the mappings
whose input or output is ASCII: `A`-`Z`, plus the only two code points whose
simple lower-case mapping is an ASCII letter (U+0130 LATIN CAPITAL LETTER I
WITH DOT ABOVE and U+212A KELVIN SIGN).  Every other Unicode mapping sends a
non-ASCII character to a non-ASCII character, and both are erased by the
`[^-a-z0-9]+` strip in `buildTraktListName`, so the composed functions agree
with Go on all inputs. -/
def goToLowerChar (c : Char) : Char :=
  if 65 ≤ c.toNat ∧ c.toNat ≤ 90 then Char.ofNat (c.toNat + 32)
  else if c.toNat = 304 then 'i'
  else if c.toNat = 8490 then 'k'
  else c

/-- The character class `[-a-z0-9]`: the regexp `[^-a-z0-9]+` in
`buildTraktListName` deletes exactly the characters outside this class. -/
def isSlugChar (c : Char) : Bool :=
  decide (c.toNat = 45 ∨ (97 ≤ c.toNat ∧ c.toNat ≤ 122) ∨ (48 ≤ c.toNat ∧ c.toNat ≤ 57))

/-! ## `strings` helpers used by `buildTraktListName` -/

/-- `strings.Fields`: splits around every maximal run of white space,
returning the non-empty words.  `acc` is the current word, reversed. -/
def fieldsAux : List Char → List Char → List (List Char)
  | [], acc => if acc = [] then [] else [acc.reverse]
  | c :: cs, acc =>
    if goIsSpace c then
      if acc = [] then fieldsAux cs [] else acc.reverse :: fieldsAux cs []
    else fieldsAux cs (c :: acc)

def goFields (l : List Char) : List (List Char) := fieldsAux l []

/-- `strings.Join(words, "-")`. -/
def joinHyphen : List (List Char) → List Char
  | [] => []
  | [w] => w
  | w :: ws => w ++ '-' :: joinHyphen ws

/--
`buildTraktListName` (imdb.go:324-328):

```go
formatted := strings.ToLower(strings.Join(strings.Fields(imdbListName), "-"))
re := regexp.MustCompile(`[^-a-z0-9]+`)
return re.ReplaceAllString(formatted, "")
```
-/
def buildTraktListName (imdbListName : String) : String :=
  (((joinHyphen (goFields imdbListName.data)).map goToLowerChar).filter isSlugChar).asString

/-! ## Spec-side slug definitions (for the refinement claims C5/C6)

`collapseWsAux l inRun` replaces every maximal run of white space in `l` by a
single `'-'`; `inRun` records whether the previous character was white space. -/

def collapseWsAux : List Char → Bool → List Char
  | [], _ => []
  | c :: cs, inRun =>
    if goIsSpace c then
      if inRun then collapseWsAux cs true else '-' :: collapseWsAux cs true
    else c :: collapseWsAux cs false

/-- Follows the spec's words for `normalizeSlug` literally: "lowercase the
input, collapse all whitespace runs into single hyphens, then strip every
character outside `[a-z0-9-]`". -/
def specNormalizeSlug (s : String) : String :=
  ((collapseWsAux (s.data.map goToLowerChar) false).filter isSlugChar).asString

/-- `strings.TrimSpace`: drop white space from both ends. -/
def trimSpace (l : List Char) : List Char :=
  ((l.reverse.dropWhile goIsSpace).reverse).dropWhile goIsSpace

/-- The amended spec wording for `normalizeSlug`: lowercase the input, drop
leading and trailing whitespace, collapse the interior whitespace runs into
single hyphens, then strip every character outside `[a-z0-9-]`. -/
def specNormalizeSlugTrimmed (s : String) : String :=
  ((collapseWsAux (trimSpace (s.data.map goToLowerChar)) false).filter isSlugChar).asString

/-! ## `strconv.Atoi` and `time.Parse("2006-01-02", ·)` -/

def isDigitChar (c : Char) : Bool := decide (48 ≤ c.toNat ∧ c.toNat ≤ 57)

def digitsToNat (l : List Char) : Nat := l.foldl (fun a d => a * 10 + (d.toNat - 48)) 0

/-- `strconv.Atoi`: optional sign, decimal digits, 64-bit range check.
Go returns a non-nil error (`ErrSyntax` or `ErrRange`) in every failure case,
which is all the caller inspects. -/
def goAtoi (s : String) : Except String Int :=
  match s.data with
  | [] => .error "invalid syntax"
  | c :: rest =>
    let signDigits : Bool × List Char :=
      if c = '-' then (true, rest) else if c = '+' then (false, rest) else (false, c :: rest)
    if signDigits.2 = [] then .error "invalid syntax"
    else if signDigits.2.all isDigitChar then
      let v : Int := if signDigits.1 then -(digitsToNat signDigits.2 : Int) else digitsToNat signDigits.2
      if v < -(2 ^ 63) ∨ 2 ^ 63 - 1 < v then .error "value out of range" else .ok v
    else .error "invalid syntax"

structure GoDate where
  year : Nat
  month : Nat
  day : Nat
deriving DecidableEq

def isLeapYear (y : Nat) : Bool := decide (y % 4 = 0 ∧ (y % 100 ≠ 0 ∨ y % 400 = 0))

def daysInMonth (y m : Nat) : Nat :=
  if m = 2 then (if isLeapYear y then 29 else 28)
  else if m = 4 ∨ m = 6 ∨ m = 9 ∨ m = 11 then 30
  else 31

/-- `time.Parse("2006-01-02", s)`: exactly four digits, `'-'`, two digits,
`'-'`, two digits, nothing after; then Go's range checks "month out of range"
(1..12) and "day out of range" (1..days in that month, leap years included). -/
def goParseDate (s : String) : Except String GoDate :=
  match s.data with
  | [y1, y2, y3, y4, h1, m1, m2, h2, d1, d2] =>
    if ([y1, y2, y3, y4, m1, m2, d1, d2].all isDigitChar) ∧ h1 = '-' ∧ h2 = '-' then
      let y := digitsToNat [y1, y2, y3, y4]
      let mo := digitsToNat [m1, m2]
      let da := digitsToNat [d1, d2]
      if mo < 1 ∨ 12 < mo then .error "month out of range"
      else if da < 1 ∨ daysInMonth y mo < da then .error "day out of range"
      else .ok ⟨y, mo, da⟩
    else .error "cannot parse"
  | _ => .error "cannot parse"

/-! ## `mime.ParseMediaType`

Modelled after Go's `mime/mediatype.go` (token / quoted-string grammar).
RFC 2231 continuations and percent-decoding (keys containing `*`) are not
modelled; no input used in the theorems below contains them. -/

def isTSpecialChar (c : Char) : Bool :=
  c ∈ ['(', ')', '<', '>', '@', ',', ';', ':', '\\', '"', '/', '[', ']', '?', '=']

def isTokenChar (c : Char) : Bool :=
  decide (32 < c.toNat ∧ c.toNat < 127) && !isTSpecialChar c

/-- `consumeToken`: the longest prefix of token characters, plus the rest. -/
def consumeToken (v : List Char) : List Char × List Char :=
  (v.takeWhile isTokenChar, v.dropWhile isTokenChar)

/-- The quoted-string scanner inside `consumeValue`: `acc` holds the already
accepted characters, reversed.  A backslash escapes a following tspecial
character; a bare CR/LF or a missing closing quote is a failure (`none`). -/
def quotedScan (acc : List Char) : List Char → Option (List Char × List Char)
  | [] => none
  | '"' :: rest => some (acc.reverse, rest)
  | '\\' :: c2 :: rest2 =>
    if isTSpecialChar c2 then quotedScan (c2 :: acc) rest2
    else quotedScan ('\\' :: acc) (c2 :: rest2)
  | ['\\'] => none
  | c :: rest => if c = '\r' ∨ c = '\n' then none else quotedScan (c :: acc) rest

/-- `consumeValue`: a token, or a double-quoted string.  Failure is signalled
Go-style by returning an empty value together with the original input. -/
def consumeValue (v : List Char) : List Char × List Char :=
  match v with
  | '"' :: rest =>
    match quotedScan [] rest with
    | some (val, r) => (val, r)
    | none => ([], v)
  | _ => consumeToken v

/-- `consumeMediaParam`: `;` `key` `=` `value` with optional white space.
Returns `(key, value, rest)`; `key = []` signals failure with `rest = v`. -/
def consumeMediaParam (v : List Char) : List Char × List Char × List Char :=
  match v.dropWhile goIsSpace with
  | ';' :: r2 =>
    let r3 := r2.dropWhile goIsSpace
    let (p, r4) := consumeToken r3
    let param := p.map goToLowerChar
    if param = [] then ([], [], v)
    else
      match r4.dropWhile goIsSpace with
      | '=' :: r6 =>
        let r7 := r6.dropWhile goIsSpace
        let (value, r8) := consumeValue r7
        if value = [] ∧ r8 = r7 then ([], [], v)
        else (param, value, r8)
      | _ => ([], [], v)
  | _ => ([], [], v)

def lookupParamOpt : List (String × String) → String → Option String
  | [], _ => none
  | (k, val) :: rest, key => if k = key then some val else lookupParamOpt rest key

/-- Go map read `params[key]`: the zero value `""` when the key is absent. -/
def lookupParam (params : List (String × String)) (key : String) : String :=
  (lookupParamOpt params key).getD ""

/-- The parameter loop of `mime.ParseMediaType`.  Each successful iteration
consumes at least the `';'`, so `fuel = v.length + 1` never runs out; the
fuel-exhaustion branch is unreachable. -/
def mediaParamsLoop : Nat → List Char → List (String × String) → Except String (List (String × String))
  | 0, _, _ => .error "mime: out of fuel"
  | fuel + 1, v, params =>
    if v = [] then .ok params
    else
      let v1 := v.dropWhile goIsSpace
      if v1 = [] then .ok params
      else
        let (key, value, rest) := consumeMediaParam v1
        if key = [] then
          if trimSpace rest = [';'] then .ok params
          else .error "mime: invalid media parameter"
        else
          match lookupParamOpt params key.asString with
          | some old =>
            if old ≠ value.asString then .error "mime: duplicate parameter name"
            else mediaParamsLoop fuel rest params
          | none => mediaParamsLoop fuel rest (params ++ [(key.asString, value.asString)])

/-- `checkMediaTypeDisposition`: the part before `';'` must be a token or a
`token/token` pair. -/
def checkMediaTypeDisposition (s : List Char) : Except String Unit :=
  match consumeToken s with
  | (typ, rest) =>
    if typ = [] then .error "mime: no media type"
    else
      match rest with
      | [] => .ok ()
      | '/' :: r2 =>
        match consumeToken r2 with
        | (subtype, r3) =>
          if subtype = [] then .error "mime: expected token after slash"
          else if r3 ≠ [] then .error "mime: unexpected content after media subtype"
          else .ok ()
      | _ => .error "mime: expected slash after first token"

/-- `mime.ParseMediaType`: media type lowered and trimmed, then the parameter
loop. -/
def goParseMediaType (v : String) : Except String (String × List (String × String)) :=
  let base := v.data.takeWhile (· ≠ ';')
  let mediatype := (trimSpace base).map goToLowerChar
  match checkMediaTypeDisposition mediatype with
  | .error e => .error e
  | .ok _ =>
    let rest := v.data.drop base.length
    match mediaParamsLoop (rest.length + 1) rest [] with
    | .error e => .error e
    | .ok params => .ok (mediatype.asString, params)

/-- `strings.Split(s, ".")` (always at least one piece). -/
def goSplitAux (sep : Char) : List Char → List Char → List (List Char)
  | [], acc => [acc.reverse]
  | c :: cs, acc => if c = sep then acc.reverse :: goSplitAux sep cs [] else goSplitAux sep cs (c :: acc)

def goSplitDot (s : String) : List String := (goSplitAux '.' s.data []).map List.asString

/-! ## Errors and results

`ImdbError` models the error values the client produces: `apiError` is the
`ApiError` struct (only the fields the claims mention: status code and
details), `genericError` a `fmt.Errorf` message, and `wrapped` a
`fmt.Errorf("...: %w", err)` wrap. -/

inductive ImdbError where
  | apiError (statusCode : Nat) (details : String)
  | genericError (msg : String)
  | wrapped (msg : String) (inner : ImdbError)
deriving DecidableEq

/-- Outcome of a Go function returning `(T, error)`: a value, an error, or a
runtime panic (out-of-range index). -/
inductive GoResult (α : Type) where
  | ok : α → GoResult α
  | err : ImdbError → GoResult α
  | panic : GoResult α
deriving DecidableEq

/-! ## Entities (`pkg/entities`, as used by imdb.go)

`Rating`/`RatingDate` are pointer fields in Go, hence `Option` here. -/

structure ImdbItem where
  Id : String
  TitleType : String
  Rating : Option Int := none
  RatingDate : Option GoDate := none
deriving DecidableEq

structure ImdbList where
  ListName : String
  ListId : String
  ListItems : List ImdbItem
  TraktListSlug : String
  IsWatchlist : Bool := false
deriving DecidableEq

structure ImdbConfig where
  CookieAtMain : String := ""
  CookieUbidMain : String := ""
  UserId : String := ""
  WatchlistId : String := ""
deriving DecidableEq

/-! ## HTTP environment

One `HttpResponse` value carries, per endpoint kind, what the client extracts
from the wire response: the status code, the `Content-Disposition` header
(`Header.Get` returns `""` when absent), the rows produced by `csv.ReadAll`
(with `LazyQuotes` and `FieldsPerRecord = -1`, so rows may have any length)
or its failure, the `id` attributes of the `.user-list` elements in document
order (`none` when the element has no `id` attribute), and the attribute
value targeted by `scrapeSelectionAttribute` (`none` when the element or
attribute is absent). -/

structure HttpResponse where
  StatusCode : Nat := 200
  ContentDisposition : String := ""
  BodyCsvError : Bool := false
  BodyCsv : List (List String) := []
  BodyUserLists : List (Option String) := []
  BodyScrapeAttr : Option String := none

/-- The network: the response the IMDb site gives to a GET of each URL. -/
structure ImdbWorld where
  respond : String → HttpResponse

/-! URL builders (`imdbPathBase` + the `fmt.Sprintf` path templates). -/

def imdbPathBase : String := "https://www.imdb.com"

def listExportUrl (listId : String) : String := imdbPathBase ++ "/list/" ++ listId ++ "/export"

def listsUrl (userId : String) : String := imdbPathBase ++ "/user/" ++ userId ++ "/lists"

def profileUrl : String := imdbPathBase ++ "/profile"

def ratingsExportUrl (userId : String) : String :=
  imdbPathBase ++ "/user/" ++ userId ++ "/ratings/export"

def watchlistUrl : String := imdbPathBase ++ "/watchlist"

/--
`doRequest` (imdb.go:98-130), status classification only (request creation
and transport failures are not modelled):

```go
switch response.StatusCode {
case http.StatusOK: break
case http.StatusForbidden: return nil, &ApiError{... details: "imdb authorization failure - update the imdb cookie values"}
case http.StatusNotFound: break // handled individually in various functions
default: return nil, &ApiError{... details: fmt.Sprintf("unexpected status code %d", ...)}
}
```
-/
def doRequest (response : HttpResponse) : GoResult HttpResponse :=
  if response.StatusCode = 200 then .ok response
  else if response.StatusCode = 403 then
    .err (.apiError 403 "imdb authorization failure - update the imdb cookie values")
  else if response.StatusCode = 404 then .ok response
  else .err (.apiError response.StatusCode "unexpected status code")

/-! ## CSV response decoding -/

/-- The loop body of `readImdbListResponse` over the non-header rows:
`record[1]` and `record[7]` are unchecked index accesses, so a row without
those columns panics.  `acc` holds the items appended so far. -/
def listRowsLoop : List (List String) → List ImdbItem → GoResult (List ImdbItem)
  | [], acc => .ok acc
  | record :: rest, acc =>
    match record[1]? with
    | none => .panic
    | some f1 =>
      match record[7]? with
      | none => .panic
      | some f7 => listRowsLoop rest (acc ++ [{ Id := f1, TitleType := f7 }])

/--
`readImdbListResponse` (imdb.go:260-292): read all CSV rows (a `csv.ReadAll`
failure is an error), map every row but the first to an item from columns 1
and 7, then require a non-empty `Content-Disposition` header that parses as a
media type with at least one parameter; the display name is the `filename`
parameter (the map's zero value `""` when absent) cut at the first `'.'`.
-/
def readImdbListResponse (res : HttpResponse) (listId : String) : GoResult ImdbList :=
  if res.BodyCsvError then .err (.genericError "failure reading from imdb response")
  else
    match listRowsLoop (res.BodyCsv.drop 1) [] with
    | .panic => .panic
    | .err e => .err e
    | .ok listItems =>
      if res.ContentDisposition = "" then
        .err (.genericError "failure reading header Content-Disposition from imdb response")
      else
        match goParseMediaType res.ContentDisposition with
        | .error _ =>
          .err (.genericError "failure parsing media type from imdb header Content-Disposition")
        | .ok (_, params) =>
          if params.length = 0 then
            .err (.genericError "failure parsing media type from imdb header Content-Disposition")
          else
            let listName := ((goSplitDot (lookupParam params "filename")).headD "")
            .ok { ListName := listName, ListId := listId, ListItems := listItems,
                  TraktListSlug := buildTraktListName listName }

/-- The loop body of `readImdbRatingsResponse` over the non-header rows, in
source order: `record[1]` (unchecked access, then `strconv.Atoi`, failure
returns an error), `record[2]` (unchecked access, then `time.Parse`, failure
returns an error), then `record[0]` and `record[5]` (unchecked accesses). -/
def ratingsLoop : List (List String) → List ImdbItem → GoResult (List ImdbItem)
  | [], acc => .ok acc
  | record :: rest, acc =>
    match record[1]? with
    | none => .panic
    | some f1 =>
      match goAtoi f1 with
      | .error _ => .err (.genericError "failure parsing imdb rating value to integer")
      | .ok rating =>
        match record[2]? with
        | none => .panic
        | some f2 =>
          match goParseDate f2 with
          | .error _ => .err (.genericError "failure parsing imdb rating date")
          | .ok ratingDate =>
            match record[0]? with
            | none => .panic
            | some f0 =>
              match record[5]? with
              | none => .panic
              | some f5 =>
                ratingsLoop rest
                  (acc ++ [{ Id := f0, TitleType := f5, Rating := some rating,
                             RatingDate := some ratingDate }])

/-- `readImdbRatingsResponse` (imdb.go:294-322): all rows but the first are
mapped through `ratingsLoop`. -/
def readImdbRatingsResponse (res : HttpResponse) : GoResult (List ImdbItem) :=
  if res.BodyCsvError then .err (.genericError "failure reading from imdb response")
  else ratingsLoop (res.BodyCsv.drop 1) []

/-! ## Endpoint operations -/

/-- `ListGet` (imdb.go:132-156): GET the list export, classify the status,
translate a passed-through 404 into the list-not-found `ApiError`, else
decode. -/
def ListGet (w : ImdbWorld) (listId : String) : GoResult ImdbList :=
  match doRequest (w.respond (listExportUrl listId)) with
  | .err e => .err e
  | .panic => .panic
  | .ok response =>
    if response.StatusCode = 404 then
      .err (.apiError 404 ("list with id " ++ listId ++ " could not be found"))
    else readImdbListResponse response listId

/-- `WatchlistGet` (imdb.go:158-165): `ListGet` on the configured watchlist
id, then flag the result. -/
def WatchlistGet (w : ImdbWorld) (config : ImdbConfig) : GoResult ImdbList :=
  match ListGet w config.WatchlistId with
  | .ok list => .ok { list with IsWatchlist := true }
  | .err e => .err e
  | .panic => .panic

/-- The `doc.Find(".user-list").Each(...)` callback of `ListsGetAll`, run
over the discovered elements in document order: an element without an `id`
attribute is logged and skipped, a `ListGet` error is logged and skipped, a
success is appended (with the slug recomputed from the display name); a Go
panic escapes the callback. -/
def listsEach (w : ImdbWorld) : List (Option String) → List ImdbList → GoResult (List ImdbList)
  | [], lists => .ok lists
  | idOpt :: rest, lists =>
    match idOpt with
    | none => listsEach w rest lists
    | some listId =>
      match ListGet w listId with
      | .panic => .panic
      | .err _ => listsEach w rest lists
      | .ok list =>
        listsEach w rest (lists ++ [{ list with TraktListSlug := buildTraktListName list.ListName }])

/-- `ListsGetAll` (imdb.go:167-201): GET the lists-overview page for the
configured user id, then fan out over the scraped `.user-list` ids
(`goquery.NewDocumentFromReader` fails only on reader IO errors, which are
not modelled). -/
def ListsGetAll (w : ImdbWorld) (config : ImdbConfig) : GoResult (List ImdbList) :=
  match doRequest (w.respond (listsUrl config.UserId)) with
  | .err e => .err e
  | .panic => .panic
  | .ok response => listsEach w response.BodyUserLists []

/-- Modelled from the spec: `scrapeSelectionAttribute` lives in
`pkg/client/client.go`, which is not among the provided sources.  Per spec
§4.3 it scrapes a single HTML element matching a selector for an attribute
and "fails with `ScrapeNotFoundError` if the element or attribute is absent";
the response environment carries the optional attribute value. -/
def scrapeSelectionAttribute (attrValue : Option String) : Except ImdbError String :=
  match attrValue with
  | some v => .ok v
  | none => .error (.genericError "selection not found")

/-- `UserIdScrape` (imdb.go:203-221): GET the profile page, scrape
`.user-profile.userId`'s `data-userid`, store it in the config. -/
def UserIdScrape (w : ImdbWorld) (config : ImdbConfig) : GoResult ImdbConfig :=
  match doRequest (w.respond profileUrl) with
  | .err e => .err e
  | .panic => .panic
  | .ok response =>
    match scrapeSelectionAttribute response.BodyScrapeAttr with
    | .error e => .err (.wrapped "imdb user id not found" e)
    | .ok userId => .ok { config with UserId := userId }

/-- `WatchlistIdScrape` (imdb.go:223-241): GET the watchlist page, scrape
`meta[property=pageId]`'s `content`, store it in the config. -/
def WatchlistIdScrape (w : ImdbWorld) (config : ImdbConfig) : GoResult ImdbConfig :=
  match doRequest (w.respond watchlistUrl) with
  | .err e => .err e
  | .panic => .panic
  | .ok response =>
    match scrapeSelectionAttribute response.BodyScrapeAttr with
    | .error e => .err (.wrapped "imdb watchlist id not found" e)
    | .ok watchlistId => .ok { config with WatchlistId := watchlistId }

/-- `RatingsGet` (imdb.go:243-258). -/
def RatingsGet (w : ImdbWorld) (config : ImdbConfig) : GoResult (List ImdbItem) :=
  match doRequest (w.respond (ratingsExportUrl config.UserId)) with
  | .err e => .err e
  | .panic => .panic
  | .ok response => readImdbRatingsResponse response

/-- `hydrate` (imdb.go:86-96): scrape the user id only when the configured
value is `""` or `"scrape"`, then always scrape the watchlist id. -/
def hydrate (w : ImdbWorld) (config : ImdbConfig) : GoResult ImdbConfig :=
  match (if config.UserId = "" ∨ config.UserId = "scrape" then
          match UserIdScrape w config with
          | .ok c => (.ok c : GoResult ImdbConfig)
          | .err e => .err (.wrapped "failure scraping imdb user id" e)
          | .panic => .panic
        else .ok config) with
  | .err e => .err e
  | .panic => .panic
  | .ok c2 =>
    match WatchlistIdScrape w c2 with
    | .ok c3 => .ok c3
    | .err e => .err (.wrapped "failure scraping imdb watchlist id" e)
    | .panic => .panic

/-- `NewImdbClient` (imdb.go:46-62): `setupCookieJar` (which only parses the
constant base URL and stores the two cookies, and cannot fail on it) followed
by `hydrate`; the resulting client state is the hydrated config. -/
def NewImdbClient (w : ImdbWorld) (config : ImdbConfig) : GoResult ImdbConfig :=
  match hydrate w config with
  | .ok c => .ok c
  | .err e => .err (.wrapped "failure hydrating imdb client" e)
  | .panic => .panic

/-! ## Statement-side row descriptors (used only in theorem statements) -/

/-- The item a well-formed list-feed row decodes to. -/
def listRowItem (r : List String) : ImdbItem :=
  { Id := (r[1]?).getD "", TitleType := (r[7]?).getD "" }

/-- The item a well-formed ratings-feed row decodes to. -/
def ratingRowItem (r : List String) : ImdbItem :=
  { Id := (r[0]?).getD "", TitleType := (r[5]?).getD "",
    Rating := match r[1]? with | some f => (goAtoi f).toOption | none => none,
    RatingDate := match r[2]? with | some f => (goParseDate f).toOption | none => none }

/-- The list produced for one discovered id during the catalog scan, when it
contributes to the result. -/
def discoveredItem (w : ImdbWorld) (idOpt : Option String) : Option ImdbList :=
  match idOpt with
  | none => none
  | some listId =>
    match ListGet w listId with
    | .ok list => some { list with TraktListSlug := buildTraktListName list.ListName }
    | _ => none

/-! ## Shared helper lemmas -/

theorem char_toNat_ofNat (n : Nat) (h : n < 55296) : (Char.ofNat n).toNat = n := by
  rw [Char.ofNat, dif_pos (Or.inl h)]
  rfl

theorem goIsSpace_goToLowerChar (c : Char) : goIsSpace (goToLowerChar c) = goIsSpace c := by
  unfold goToLowerChar
  split_ifs with h1 h2 h3
  · have hv : (Char.ofNat (c.toNat + 32)).toNat = c.toNat + 32 := char_toNat_ofNat _ (by omega)
    simp only [goIsSpace, hv, decide_eq_decide]
    omega
  · have hl : goIsSpace 'i' = false := by decide
    have hr : goIsSpace c = false := by
      simp only [goIsSpace]
      rw [decide_eq_false_iff_not]
      omega
    rw [hl, hr]
  · have hl : goIsSpace 'k' = false := by decide
    have hr : goIsSpace c = false := by
      simp only [goIsSpace]
      rw [decide_eq_false_iff_not]
      omega
    rw [hl, hr]
  · rfl

theorem goToLowerChar_slug {c : Char} (h : isSlugChar c = true) : goToLowerChar c = c := by
  rw [isSlugChar, decide_eq_true_iff] at h
  unfold goToLowerChar
  rw [if_neg (by omega), if_neg (by omega), if_neg (by omega)]

theorem slug_not_space {c : Char} (h : isSlugChar c = true) : goIsSpace c = false := by
  rw [isSlugChar, decide_eq_true_iff] at h
  rw [goIsSpace, decide_eq_false_iff_not]
  omega

theorem map_eq_self_of_fix {α : Type} {f : α → α} : ∀ {l : List α}, (∀ x ∈ l, f x = x) → l.map f = l
  | [], _ => rfl
  | x :: xs, h => by
    rw [List.map_cons, h x (List.mem_cons_self x xs),
      map_eq_self_of_fix (fun y hy => h y (List.mem_cons_of_mem x hy))]

theorem dropWhile_head_false {α : Type} {p : α → Bool} :
    ∀ {l l' : List α} {a : α}, l.dropWhile p = a :: l' → p a = false
  | [], _, _, h => by simp [List.dropWhile] at h
  | x :: xs, l', a, h => by
    rw [List.dropWhile_cons] at h
    by_cases hx : p x = true
    · rw [if_pos hx] at h
      exact dropWhile_head_false h
    · rw [if_neg hx] at h
      cases h
      simpa using hx

/-! ### One-step equations for the scanning recursions -/

theorem fieldsAux_nil (acc : List Char) :
    fieldsAux [] acc = if acc = [] then [] else [acc.reverse] := rfl

theorem fieldsAux_cons (c : Char) (cs acc : List Char) :
    fieldsAux (c :: cs) acc =
      if goIsSpace c then
        (if acc = [] then fieldsAux cs [] else acc.reverse :: fieldsAux cs [])
      else fieldsAux cs (c :: acc) := rfl

theorem collapseWs_cons (c : Char) (cs : List Char) (b : Bool) :
    collapseWsAux (c :: cs) b =
      if goIsSpace c then
        (if b then collapseWsAux cs true else '-' :: collapseWsAux cs true)
      else c :: collapseWsAux cs false := rfl

/-! ### `fieldsAux` lemmas -/

theorem fieldsAux_word : ∀ (w : List Char) (r acc : List Char),
    (∀ c ∈ w, goIsSpace c = false) → fieldsAux (w ++ r) acc = fieldsAux r (w.reverse ++ acc)
  | [], r, acc, _ => by simp
  | c :: w', r, acc, h => by
    have hc : goIsSpace c = false := h c (List.mem_cons_self c w')
    rw [List.cons_append, fieldsAux_cons, if_neg (by rw [hc]; exact Bool.false_ne_true),
      fieldsAux_word w' r (c :: acc) (fun x hx => h x (List.mem_cons_of_mem c hx))]
    simp

theorem fieldsAux_allspace : ∀ (s : List Char) (acc : List Char),
    (∀ c ∈ s, goIsSpace c = true) → fieldsAux s acc = if acc = [] then [] else [acc.reverse]
  | [], acc, _ => rfl
  | c :: s', acc, h => by
    have hc : goIsSpace c = true := h c (List.mem_cons_self c s')
    have ih := fieldsAux_allspace s' [] (fun x hx => h x (List.mem_cons_of_mem c hx))
    rw [fieldsAux_cons, if_pos hc]
    by_cases hacc : acc = []
    · rw [if_pos hacc, if_pos hacc, ih, if_pos rfl]
    · rw [if_neg hacc, if_neg hacc, ih, if_pos rfl]

theorem fieldsAux_append_spaces : ∀ (l s acc : List Char),
    (∀ c ∈ s, goIsSpace c = true) → fieldsAux (l ++ s) acc = fieldsAux l acc
  | [], s, acc, h => by
    rw [List.nil_append, fieldsAux_allspace s acc h, fieldsAux_nil]
  | c :: l', s, acc, h => by
    rw [List.cons_append, fieldsAux_cons, fieldsAux_cons]
    by_cases hc : goIsSpace c = true
    · rw [if_pos hc, if_pos hc]
      by_cases hacc : acc = []
      · rw [if_pos hacc, if_pos hacc, fieldsAux_append_spaces l' s [] h]
      · rw [if_neg hacc, if_neg hacc, fieldsAux_append_spaces l' s [] h]
    · rw [if_neg hc, if_neg hc, fieldsAux_append_spaces l' s (c :: acc) h]

theorem fieldsAux_ne_nil_acc : ∀ (l acc : List Char), acc ≠ [] → fieldsAux l acc ≠ []
  | [], acc, h => by
    rw [fieldsAux_nil, if_neg h]
    simp
  | c :: l', acc, h => by
    rw [fieldsAux_cons]
    by_cases hc : goIsSpace c = true
    · rw [if_pos hc, if_neg h]
      simp
    · rw [if_neg hc]
      exact fieldsAux_ne_nil_acc l' (c :: acc) (by simp)

theorem fieldsAux_ne_nil_mem : ∀ (l : List Char) (acc : List Char),
    (∃ c ∈ l, goIsSpace c = false) → fieldsAux l acc ≠ []
  | [], _, h => by simp at h
  | c :: l', acc, h => by
    rw [fieldsAux_cons]
    by_cases hc : goIsSpace c = true
    · have hl' : ∃ x ∈ l', goIsSpace x = false := by
        obtain ⟨x, hx, hxs⟩ := h
        rcases List.mem_cons.mp hx with rfl | hmem
        · rw [hc] at hxs
          cases hxs
        · exact ⟨x, hmem, hxs⟩
      rw [if_pos hc]
      by_cases hacc : acc = []
      · rw [if_pos hacc]
        exact fieldsAux_ne_nil_mem l' [] hl'
      · rw [if_neg hacc]
        simp
    · rw [if_neg hc]
      exact fieldsAux_ne_nil_acc l' (c :: acc) (by simp)

/-! ### `collapseWsAux` lemmas -/

theorem collapseWsAux_word : ∀ (w r : List Char),
    (∀ c ∈ w, goIsSpace c = false) → collapseWsAux (w ++ r) false = w ++ collapseWsAux r false
  | [], _, _ => rfl
  | c :: w', r, h => by
    have hc : goIsSpace c = false := h c (List.mem_cons_self c w')
    rw [List.cons_append, collapseWs_cons, if_neg (by rw [hc]; exact Bool.false_ne_true),
      collapseWsAux_word w' r (fun x hx => h x (List.mem_cons_of_mem c hx)), List.cons_append]

theorem collapseWsAux_true_dropWhile : ∀ (l : List Char),
    collapseWsAux l true = collapseWsAux (l.dropWhile goIsSpace) false
  | [] => rfl
  | c :: l' => by
    rw [List.dropWhile_cons, collapseWs_cons]
    by_cases hc : goIsSpace c = true
    · rw [if_pos hc, if_pos hc, if_pos rfl]
      exact collapseWsAux_true_dropWhile l'
    · rw [if_neg hc, if_neg hc, collapseWs_cons, if_neg hc]

theorem collapseWsAux_map : ∀ (l : List Char) (b : Bool),
    collapseWsAux (l.map goToLowerChar) b = (collapseWsAux l b).map goToLowerChar
  | [], _ => rfl
  | c :: l', b => by
    rw [List.map_cons, collapseWs_cons, collapseWs_cons, goIsSpace_goToLowerChar c]
    by_cases hc : goIsSpace c = true
    · rw [if_pos hc, if_pos hc]
      by_cases hb : b
      · rw [if_pos hb, if_pos hb, collapseWsAux_map l' true]
      · rw [if_neg hb, if_neg hb, collapseWsAux_map l' true, List.map_cons]
        have : goToLowerChar '-' = '-' := by decide
        rw [this]
    · rw [if_neg hc, if_neg hc, collapseWsAux_map l' false, List.map_cons]

/-! ### trimming lemmas -/

theorem dropWhile_map_lower (l : List Char) :
    (l.map goToLowerChar).dropWhile goIsSpace = (l.dropWhile goIsSpace).map goToLowerChar := by
  rw [List.dropWhile_map]
  have h : (goIsSpace ∘ goToLowerChar) = goIsSpace := by
    funext c
    exact goIsSpace_goToLowerChar c
  rw [h]

theorem trimSpace_map_lower (l : List Char) :
    trimSpace (l.map goToLowerChar) = (trimSpace l).map goToLowerChar := by
  unfold trimSpace
  rw [← List.map_reverse, dropWhile_map_lower, ← List.map_reverse, dropWhile_map_lower]

/-- Core equivalence: joining the fields with hyphens agrees with collapsing
whitespace runs, on inputs without trailing whitespace. -/
theorem joinFields_eq_collapse_noTrail : ∀ (l : List Char),
    (∀ c, l.getLast? = some c → goIsSpace c = false) →
    joinHyphen (fieldsAux l []) = collapseWsAux (l.dropWhile goIsSpace) false
  | [], _ => rfl
  | c :: cs, hlast => by
    by_cases hc : goIsSpace c = true
    · cases cs with
      | nil =>
        have := hlast c rfl
        rw [hc] at this
        cases this
      | cons d ds =>
        have h1 : fieldsAux (c :: d :: ds) [] = fieldsAux (d :: ds) [] := by
          rw [fieldsAux_cons, if_pos hc, if_pos rfl]
        have h2 : (c :: d :: ds).dropWhile goIsSpace = (d :: ds).dropWhile goIsSpace := by
          rw [List.dropWhile_cons, if_pos hc]
        rw [h1, h2]
        exact joinFields_eq_collapse_noTrail (d :: ds)
          (fun x hx => hlast x (by rw [List.getLast?_cons_cons]; exact hx))
    · have hwr : (c :: cs).takeWhile (fun x => !goIsSpace x) ++
          (c :: cs).dropWhile (fun x => !goIsSpace x) = c :: cs :=
        List.takeWhile_append_dropWhile _ _
      set w := (c :: cs).takeWhile (fun x => !goIsSpace x) with hw
      set r := (c :: cs).dropWhile (fun x => !goIsSpace x) with hr
      have hw_nonspace : ∀ x ∈ w, goIsSpace x = false := by
        intro x hx
        have := List.mem_takeWhile_imp hx
        simpa using this
      have hw_ne : w ≠ [] := by
        rw [hw, List.takeWhile_cons, if_pos (by simpa using hc)]
        simp
      have hdrop : (c :: cs).dropWhile goIsSpace = c :: cs := by
        rw [List.dropWhile_cons, if_neg hc]
      rw [hdrop, ← hwr]
      rw [collapseWsAux_word w r hw_nonspace]
      rw [fieldsAux_word w r [] hw_nonspace, List.append_nil]
      cases hrc : r with
      | nil =>
        rw [fieldsAux_nil, if_neg (by simpa using hw_ne)]
        rw [List.reverse_reverse]
        have hcoll : collapseWsAux [] false = [] := rfl
        rw [hcoll, List.append_nil]
        rfl
      | cons d ds =>
        have hd : goIsSpace d = true := by
          have := dropWhile_head_false (hr ▸ hrc : (c :: cs).dropWhile (fun x => !goIsSpace x) = d :: ds)
          simpa using this
        have hwrev : w.reverse ≠ [] := fun hnil => hw_ne (List.reverse_eq_nil_iff.mp hnil)
        rw [fieldsAux_cons, if_pos hd, if_neg hwrev, List.reverse_reverse]
        have hlast_l : (c :: cs).getLast? = (d :: ds).getLast? := by
          conv_lhs => rw [← hwr, hrc]
          rw [List.getLast?_append]
          cases hgl : (d :: ds).getLast? with
          | none => simp [List.getLast?] at hgl
          | some x => rfl
        have hds_ne : ds ≠ [] := by
          intro hnil
          subst hnil
          have : goIsSpace d = false := hlast d (by rw [hlast_l]; rfl)
          rw [hd] at this
          cases this
        have hlast_ds : ∀ x, ds.getLast? = some x → goIsSpace x = false := by
          intro x hx
          apply hlast
          rw [hlast_l]
          obtain ⟨e, es, hes⟩ := List.exists_cons_of_ne_nil hds_ne
          rw [hes, List.getLast?_cons_cons, ← hes]
          exact hx
        have hF : fieldsAux ds [] ≠ [] := by
          obtain ⟨x, hxmem, hxs⟩ : ∃ x ∈ ds, goIsSpace x = false := by
            obtain ⟨e, es, hes⟩ := List.exists_cons_of_ne_nil hds_ne
            obtain ⟨x, hgl⟩ : ∃ x, ds.getLast? = some x := by
              rw [hes]
              exact ⟨(e :: es).getLast (by simp), List.getLast?_eq_getLast _ _⟩
            exact ⟨x, List.mem_of_mem_getLast? hgl, hlast_ds x hgl⟩
          exact fieldsAux_ne_nil_mem ds [] ⟨x, hxmem, hxs⟩
        obtain ⟨f, fs, hfs⟩ := List.exists_cons_of_ne_nil hF
        rw [hfs]
        show w ++ '-' :: joinHyphen (f :: fs) = w ++ collapseWsAux (d :: ds) false
        rw [collapseWs_cons, if_pos hd, if_neg Bool.false_ne_true, ← hfs,
          collapseWsAux_true_dropWhile ds,
          joinFields_eq_collapse_noTrail ds hlast_ds]
termination_by l => l.length
decreasing_by
  · simp_all
  · have hlen : w.length + r.length = (c :: cs).length := by
      rw [← List.length_append, hwr]
    have : r.length = ds.length + 1 := by rw [hrc]; rfl
    have hwlen : 1 ≤ w.length := by
      obtain ⟨a, as, haw⟩ := List.exists_cons_of_ne_nil hw_ne
      rw [haw]
      simp
    simp at hlen ⊢
    omega

theorem joinFields_eq_collapse_trim (l : List Char) :
    joinHyphen (fieldsAux l []) = collapseWsAux (trimSpace l) false := by
  have hdecomp : (l.reverse.dropWhile goIsSpace).reverse ++ (l.reverse.takeWhile goIsSpace).reverse = l := by
    rw [← List.reverse_append, List.takeWhile_append_dropWhile, List.reverse_reverse]
  have hsuffix : ∀ c ∈ (l.reverse.takeWhile goIsSpace).reverse, goIsSpace c = true := by
    intro c hc
    exact List.mem_takeWhile_imp (List.mem_reverse.mp hc)
  have h1 : fieldsAux l [] = fieldsAux ((l.reverse.dropWhile goIsSpace).reverse) [] := by
    conv_lhs => rw [← hdecomp]
    exact fieldsAux_append_spaces _ _ [] hsuffix
  have hlast : ∀ c, ((l.reverse.dropWhile goIsSpace).reverse).getLast? = some c → goIsSpace c = false := by
    intro c hc
    rw [List.getLast?_reverse] at hc
    cases hm : l.reverse.dropWhile goIsSpace with
    | nil => rw [hm] at hc; cases hc
    | cons a as =>
      rw [hm] at hc
      have : a = c := by simpa using hc
      subst this
      exact dropWhile_head_false hm
  rw [h1, joinFields_eq_collapse_noTrail _ hlast]
  rfl

theorem data_asString (l : List Char) : (List.asString l).data = l := rfl

/-- Helper: applying `buildTraktListName` to a string made only of slug
characters returns it unchanged. -/
theorem buildTraktListName_of_slug_chars (t : List Char) (h : ∀ c ∈ t, isSlugChar c = true) :
    buildTraktListName (List.asString t) = List.asString t := by
  unfold buildTraktListName goFields
  rw [data_asString]
  cases ht : t with
  | nil => rfl
  | cons a as =>
    have hnospace : ∀ c ∈ t, goIsSpace c = false := fun c hc => slug_not_space (h c hc)
    have h2 : fieldsAux t [] = [t] := by
      conv_lhs => rw [← List.append_nil t]
      rw [fieldsAux_word t [] [] hnospace, List.append_nil, fieldsAux_nil,
        if_neg (by rw [ht]; simp), List.reverse_reverse]
    rw [← ht, h2]
    have h3 : joinHyphen [t] = t := rfl
    rw [h3, map_eq_self_of_fix (fun c hc => goToLowerChar_slug (h c hc)),
      List.filter_eq_self.mpr h]

/-- C6: `normalizeSlug` is total, produces only `[a-z0-9-]`, and is
idempotent. -/
theorem normalizeSlug_charset_idempotent (s : String) :
    ((buildTraktListName s).data.all isSlugChar = true) ∧
    buildTraktListName (buildTraktListName s) = buildTraktListName s := by
  have hchars : ∀ c ∈ (buildTraktListName s).data, isSlugChar c = true := by
    intro c hc
    unfold buildTraktListName at hc
    rw [data_asString] at hc
    exact List.of_mem_filter hc
  refine ⟨List.all_eq_true.mpr hchars, ?_⟩
  have h := buildTraktListName_of_slug_chars (buildTraktListName s).data hchars
  have hback : List.asString (buildTraktListName s).data = buildTraktListName s := by
    unfold buildTraktListName
    rfl
  rw [hback] at h
  exact h

/-- C5 (counterexample): on `" a"` the code drops the leading whitespace,
while the spec's literal algorithm turns it into a leading hyphen. -/
theorem normalizeSlug_spec_mismatch :
    buildTraktListName " a" = "a" ∧ specNormalizeSlug " a" = "-a" ∧
    buildTraktListName " a" ≠ specNormalizeSlug " a" :=
  ⟨by decide, by decide, by decide⟩

/-- C5 (amended): `normalizeSlug` lowercases, drops leading and trailing
whitespace, collapses interior whitespace runs into single hyphens, then
strips every character outside `[a-z0-9-]`; on `"Sci-Fi Favorites 2024"` it
yields `"sci-fi-favorites-2024"`. -/
theorem normalizeSlug_amended (s : String) :
    buildTraktListName s = specNormalizeSlugTrimmed s ∧
    buildTraktListName "Sci-Fi Favorites 2024" = "sci-fi-favorites-2024" := by
  constructor
  · unfold buildTraktListName specNormalizeSlugTrimmed goFields
    rw [joinFields_eq_collapse_trim, trimSpace_map_lower, collapseWsAux_map]
  · decide

/-! ### Index access helpers -/

theorem getElemOpt_lt {α : Type} {l : List α} {i : Nat} {v : α} (h : l[i]? = some v) : i < l.length := by
  by_contra hc
  rw [List.getElem?_eq_none_iff.mpr (by omega)] at h
  cases h

theorem getElemOpt_of_lt {α : Type} {l : List α} {i : Nat} (h : i < l.length) : l[i]? = some l[i] :=
  List.getElem?_eq_getElem h

/-! ### `listRowsLoop` lemmas -/

theorem listRowsLoop_cons (record : List String) (rest : List (List String)) (acc : List ImdbItem) :
    listRowsLoop (record :: rest) acc =
      match record[1]? with
      | none => .panic
      | some f1 =>
        match record[7]? with
        | none => .panic
        | some f7 => listRowsLoop rest (acc ++ [{ Id := f1, TitleType := f7 }]) := rfl

theorem listRowsLoop_ok : ∀ (rows : List (List String)) (acc items : List ImdbItem),
    listRowsLoop rows acc = .ok items →
    items = acc ++ rows.map listRowItem ∧ ∀ r ∈ rows, 8 ≤ r.length
  | [], acc, items, h => by
    simp only [listRowsLoop] at h
    cases h
    exact ⟨(List.append_nil acc).symm, by simp⟩
  | record :: rest, acc, items, h => by
    rw [listRowsLoop_cons] at h
    cases h1 : record[1]? with
    | none =>
      simp only [h1] at h
      cases h
    | some f1 =>
      simp only [h1] at h
      cases h7 : record[7]? with
      | none =>
        simp only [h7] at h
        cases h
      | some f7 =>
        simp only [h7] at h
        obtain ⟨hitems, hlen⟩ := listRowsLoop_ok rest _ items h
        have hrec : listRowItem record = { Id := f1, TitleType := f7 } := by
          unfold listRowItem
          rw [h1, h7]
          rfl
        refine ⟨?_, ?_⟩
        · rw [hitems, List.map_cons, hrec, List.append_assoc, List.singleton_append]
        · intro r hr
          rcases List.mem_cons.mp hr with rfl | hmem
          · have := getElemOpt_lt h7
            omega
          · exact hlen r hmem

theorem listRowsLoop_panic_iff : ∀ (rows : List (List String)) (acc : List ImdbItem),
    (listRowsLoop rows acc = .panic) ↔ ∃ r ∈ rows, r.length < 8
  | [], acc => by simp [listRowsLoop]
  | record :: rest, acc => by
    rw [listRowsLoop_cons]
    cases h1 : record[1]? with
    | none =>
      constructor
      · intro _
        exact ⟨record, List.mem_cons_self _ _, by
          have := List.getElem?_eq_none_iff.mp h1
          omega⟩
      · intro _
        rfl
    | some f1 =>
      cases h7 : record[7]? with
      | none =>
        constructor
        · intro _
          exact ⟨record, List.mem_cons_self _ _, by
            have := List.getElem?_eq_none_iff.mp h7
            omega⟩
        · intro _
          rfl
      | some f7 =>
        constructor
        · intro h
          obtain ⟨r, hr, hlen⟩ := (listRowsLoop_panic_iff rest _).mp h
          exact ⟨r, List.mem_cons_of_mem _ hr, hlen⟩
        · rintro ⟨r, hr, hlen⟩
          rcases List.mem_cons.mp hr with rfl | hmem
          · exact absurd hlen (by
              have := getElemOpt_lt h7
              omega)
          · exact (listRowsLoop_panic_iff rest _).mpr ⟨r, hmem, hlen⟩

/-! ### `ratingsLoop` lemmas -/

theorem ratingsLoop_cons (record : List String) (rest : List (List String)) (acc : List ImdbItem) :
    ratingsLoop (record :: rest) acc =
      match record[1]? with
      | none => .panic
      | some f1 =>
        match goAtoi f1 with
        | .error _ => .err (.genericError "failure parsing imdb rating value to integer")
        | .ok rating =>
          match record[2]? with
          | none => .panic
          | some f2 =>
            match goParseDate f2 with
            | .error _ => .err (.genericError "failure parsing imdb rating date")
            | .ok ratingDate =>
              match record[0]? with
              | none => .panic
              | some f0 =>
                match record[5]? with
                | none => .panic
                | some f5 =>
                  ratingsLoop rest
                    (acc ++ [{ Id := f0, TitleType := f5, Rating := some rating,
                               RatingDate := some ratingDate }]) := rfl

theorem ratingsLoop_ok : ∀ (rows : List (List String)) (acc items : List ImdbItem),
    ratingsLoop rows acc = .ok items →
    items = acc ++ rows.map ratingRowItem ∧
    ∀ r ∈ rows, (ratingRowItem r).Rating.isSome = true ∧ (ratingRowItem r).RatingDate.isSome = true
  | [], acc, items, h => by
    simp only [ratingsLoop] at h
    cases h
    exact ⟨(List.append_nil acc).symm, by simp⟩
  | record :: rest, acc, items, h => by
    rw [ratingsLoop_cons] at h
    cases h1 : record[1]? with
    | none =>
      simp only [h1] at h
      cases h
    | some f1 =>
      simp only [h1] at h
      cases hA : goAtoi f1 with
      | error e =>
        simp only [hA] at h
        cases h
      | ok rating =>
        simp only [hA] at h
        cases h2 : record[2]? with
        | none =>
          simp only [h2] at h
          cases h
        | some f2 =>
          simp only [h2] at h
          cases hD : goParseDate f2 with
          | error e =>
            simp only [hD] at h
            cases h
          | ok ratingDate =>
            simp only [hD] at h
            cases h0 : record[0]? with
            | none =>
              simp only [h0] at h
              cases h
            | some f0 =>
              simp only [h0] at h
              cases h5 : record[5]? with
              | none =>
                simp only [h5] at h
                cases h
              | some f5 =>
                simp only [h5] at h
                obtain ⟨hitems, hrest⟩ := ratingsLoop_ok rest _ items h
                have hrec : ratingRowItem record =
                    { Id := f0, TitleType := f5, Rating := some rating,
                      RatingDate := some ratingDate } := by
                  unfold ratingRowItem
                  simp only [h0, h5, h1, h2, hA, hD]
                  rfl
                refine ⟨?_, ?_⟩
                · rw [hitems, List.map_cons, hrec, List.append_assoc, List.singleton_append]
                · intro r hr
                  rcases List.mem_cons.mp hr with rfl | hmem
                  · rw [hrec]
                    exact ⟨rfl, rfl⟩
                  · exact hrest r hmem

theorem ratingsLoop_err_of_badparse : ∀ (rows : List (List String)) (acc : List ImdbItem),
    (∀ r ∈ rows, 6 ≤ r.length) →
    (∃ r ∈ rows, (ratingRowItem r).Rating.isSome = false ∨ (ratingRowItem r).RatingDate.isSome = false) →
    ∃ e, ratingsLoop rows acc = .err e
  | [], _, _, hbad => by simp at hbad
  | record :: rest, acc, hlen, hbad => by
    have hlr : 6 ≤ record.length := hlen record (List.mem_cons_self _ _)
    have h1 : record[1]? = some record[1] := getElemOpt_of_lt (by omega)
    have h2 : record[2]? = some record[2] := getElemOpt_of_lt (by omega)
    have h0 : record[0]? = some record[0] := getElemOpt_of_lt (by omega)
    have h5 : record[5]? = some record[5] := getElemOpt_of_lt (by omega)
    rw [ratingsLoop_cons]
    simp only [h1]
    cases hA : goAtoi record[1] with
    | error e => exact ⟨_, rfl⟩
    | ok rating =>
      simp only [h2]
      cases hD : goParseDate record[2] with
      | error e => exact ⟨_, rfl⟩
      | ok ratingDate =>
        simp only [h0, h5]
        apply ratingsLoop_err_of_badparse rest _ (fun r hr => hlen r (List.mem_cons_of_mem _ hr))
        obtain ⟨r, hr, hbadr⟩ := hbad
        rcases List.mem_cons.mp hr with rfl | hmem
        · exfalso
          have hrat : (ratingRowItem r).Rating.isSome = true := by
            unfold ratingRowItem
            simp only [h1, hA]
            rfl
          have hdat : (ratingRowItem r).RatingDate.isSome = true := by
            unfold ratingRowItem
            simp only [h2, hD]
            rfl
          rcases hbadr with hb | hb
          · rw [hrat] at hb
            cases hb
          · rw [hdat] at hb
            cases hb
        · exact ⟨r, hmem, hbadr⟩

theorem ratingsLoop_no_panic : ∀ (rows : List (List String)) (acc : List ImdbItem),
    (∀ r ∈ rows, 6 ≤ r.length) → ratingsLoop rows acc ≠ .panic
  | [], acc, _ => by simp [ratingsLoop]
  | record :: rest, acc, hlen => by
    have hlr : 6 ≤ record.length := hlen record (List.mem_cons_self _ _)
    have h1 : record[1]? = some record[1] := getElemOpt_of_lt (by omega)
    have h2 : record[2]? = some record[2] := getElemOpt_of_lt (by omega)
    have h0 : record[0]? = some record[0] := getElemOpt_of_lt (by omega)
    have h5 : record[5]? = some record[5] := getElemOpt_of_lt (by omega)
    rw [ratingsLoop_cons]
    simp only [h1]
    cases hA : goAtoi record[1] with
    | error e => simp
    | ok rating =>
      simp only [h2]
      cases hD : goParseDate record[2] with
      | error e => simp
      | ok ratingDate =>
        simp only [h0, h5]
        exact ratingsLoop_no_panic rest _ (fun r hr => hlen r (List.mem_cons_of_mem _ hr))

theorem ratingsLoop_panic_short : ∀ (rows : List (List String)) (acc : List ImdbItem),
    ratingsLoop rows acc = .panic → ∃ r ∈ rows, r.length < 6
  | [], _, h => by simp [ratingsLoop] at h
  | record :: rest, acc, h => by
    rw [ratingsLoop_cons] at h
    cases h1 : record[1]? with
    | none =>
      exact ⟨record, List.mem_cons_self _ _, by
        have := List.getElem?_eq_none_iff.mp h1
        omega⟩
    | some f1 =>
      simp only [h1] at h
      cases hA : goAtoi f1 with
      | error e =>
        simp only [hA] at h
        cases h
      | ok rating =>
        simp only [hA] at h
        cases h2 : record[2]? with
        | none =>
          exact ⟨record, List.mem_cons_self _ _, by
            have := List.getElem?_eq_none_iff.mp h2
            omega⟩
        | some f2 =>
          simp only [h2] at h
          cases hD : goParseDate f2 with
          | error e =>
            simp only [hD] at h
            cases h
          | ok ratingDate =>
            simp only [hD] at h
            cases h0 : record[0]? with
            | none =>
              exact ⟨record, List.mem_cons_self _ _, by
                have := List.getElem?_eq_none_iff.mp h0
                omega⟩
            | some f0 =>
              simp only [h0] at h
              cases h5 : record[5]? with
              | none =>
                exact ⟨record, List.mem_cons_self _ _, by
                  have := List.getElem?_eq_none_iff.mp h5
                  omega⟩
              | some f5 =>
                simp only [h5] at h
                obtain ⟨r, hr, hlen⟩ := ratingsLoop_panic_short rest _ h
                exact ⟨r, List.mem_cons_of_mem _ hr, hlen⟩

/-! ### Response-level lemmas -/

theorem listRowsLoop_no_err : ∀ (rows : List (List String)) (acc : List ImdbItem) (e : ImdbError),
    listRowsLoop rows acc ≠ .err e
  | [], acc, e => by simp [listRowsLoop]
  | record :: rest, acc, e => by
    rw [listRowsLoop_cons]
    cases h1 : record[1]? with
    | none => simp
    | some f1 =>
      cases h7 : record[7]? with
      | none => simp
      | some f7 =>
        exact listRowsLoop_no_err rest _ e

/-- Inversion of a successful `readImdbListResponse`. -/
theorem readImdbListResponse_ok_inv {res : HttpResponse} {listId : String} {l : ImdbList}
    (h : readImdbListResponse res listId = .ok l) :
    res.BodyCsvError = false ∧
    listRowsLoop (res.BodyCsv.drop 1) [] = .ok l.ListItems ∧
    res.ContentDisposition ≠ "" ∧
    ∃ mt params, goParseMediaType res.ContentDisposition = .ok (mt, params) ∧ params ≠ [] ∧
      l.ListName = (goSplitDot (lookupParam params "filename")).headD "" ∧
      l.TraktListSlug = buildTraktListName l.ListName ∧ l.ListId = listId ∧ l.IsWatchlist = false := by
  unfold readImdbListResponse at h
  cases hE : res.BodyCsvError with
  | true =>
    rw [hE] at h
    simp only [if_true] at h
    cases h
  | false =>
    rw [hE] at h
    simp only [Bool.false_eq_true, if_false] at h
    cases hLoop : listRowsLoop (res.BodyCsv.drop 1) [] with
    | panic =>
      rw [hLoop] at h
      cases h
    | err e =>
      exact absurd hLoop (listRowsLoop_no_err _ _ e)
    | ok listItems =>
      simp only [hLoop] at h
      by_cases hCD : res.ContentDisposition = ""
      · rw [if_pos hCD] at h
        cases h
      · rw [if_neg hCD] at h
        cases hPM : goParseMediaType res.ContentDisposition with
        | error e =>
          rw [hPM] at h
          cases h
        | ok pr =>
          obtain ⟨mt, params⟩ := pr
          rw [hPM] at h
          simp only at h
          by_cases hP : params.length = 0
          · rw [if_pos hP] at h
            cases h
          · rw [if_neg hP] at h
            cases h
            refine ⟨rfl, rfl, hCD, mt, params, rfl, ?_, rfl, rfl, rfl, rfl⟩
            intro hnil
            exact hP (by rw [hnil]; rfl)

/-- A successful row loop means the rest of `readImdbListResponse` cannot
panic. -/
theorem readImdbListResponse_panic_iff (res : HttpResponse) (listId : String)
    (hE : res.BodyCsvError = false) :
    readImdbListResponse res listId = .panic ↔ ∃ r ∈ res.BodyCsv.drop 1, r.length < 8 := by
  unfold readImdbListResponse
  rw [hE]
  simp only [Bool.false_eq_true, if_false]
  cases hLoop : listRowsLoop (res.BodyCsv.drop 1) [] with
  | panic =>
    simp only
    constructor
    · intro _
      exact (listRowsLoop_panic_iff _ []).mp hLoop
    · intro _
      trivial
  | err e =>
    exact absurd hLoop (listRowsLoop_no_err _ _ e)
  | ok listItems =>
    simp only
    constructor
    · intro h
      by_cases hCD : res.ContentDisposition = ""
      · rw [if_pos hCD] at h
        cases h
      · rw [if_neg hCD] at h
        cases hPM : goParseMediaType res.ContentDisposition with
        | error e =>
          rw [hPM] at h
          cases h
        | ok pr =>
          obtain ⟨mt, params⟩ := pr
          rw [hPM] at h
          simp only at h
          by_cases hP : params.length = 0
          · rw [if_pos hP] at h
            cases h
          · rw [if_neg hP] at h
            cases h
    · intro hshort
      exact absurd hLoop (by
        rw [(listRowsLoop_panic_iff _ []).mpr hshort]
        intro hc
        cases hc)

/-! ## Claim theorems: CSV decoding (C2, C7, C10) -/

/-- C7: a successful `fetchList` decode skips the header row and maps every
other row to an item with id = column 1 and title-type = column 7; items from
a list feed never carry a rating or a rating date. -/
theorem listFeed_columns (res : HttpResponse) (listId : String) (l : ImdbList)
    (h : readImdbListResponse res listId = .ok l) :
    l.ListItems = (res.BodyCsv.drop 1).map listRowItem ∧
    ∀ it ∈ l.ListItems, it.Rating = none ∧ it.RatingDate = none := by
  obtain ⟨-, hLoop, -, -⟩ := readImdbListResponse_ok_inv h
  obtain ⟨hitems, -⟩ := listRowsLoop_ok _ [] _ hLoop
  rw [List.nil_append] at hitems
  refine ⟨hitems, ?_⟩
  intro it hit
  rw [hitems] at hit
  obtain ⟨r, -, hr⟩ := List.mem_map.mp hit
  rw [← hr]
  exact ⟨rfl, rfl⟩

def c7res : HttpResponse :=
  { BodyCsv := [["Position", "Const", "Created", "Modified", "Description", "Title", "URL", "Title Type"],
                ["1", "tt0111161", "c", "m", "", "The Shawshank Redemption", "u", "movie"],
                ["2", "tt0068646", "c", "m", "", "The Godfather", "u", "movie"]],
    ContentDisposition := "attachment; filename=\"My Watchlist.csv\"" }

theorem listFeed_columns_witness :
    ∃ l : ImdbList, readImdbListResponse c7res "ls1" = .ok l ∧
      l.ListItems = [{ Id := "tt0111161", TitleType := "movie" },
                     { Id := "tt0068646", TitleType := "movie" }] ∧
      ∀ it ∈ l.ListItems, it.Rating = none ∧ it.RatingDate = none := by
  have hok : readImdbListResponse c7res "ls1" =
      .ok { ListName := "My Watchlist", ListId := "ls1",
            ListItems := [{ Id := "tt0111161", TitleType := "movie" },
                          { Id := "tt0068646", TitleType := "movie" }],
            TraktListSlug := "my-watchlist", IsWatchlist := false } := by rfl
  refine ⟨_, hok, ?_, ?_⟩
  · have h := listFeed_columns c7res "ls1" _ hok
    rw [h.1]
    rfl
  · exact (listFeed_columns c7res "ls1" _ hok).2

/-- C2: `fetchRatings` decoding skips the header row; a successful call maps
every other row to an item with id = column 0, rating = column 1 parsed as an
integer, rating-date = column 2 parsed as a `YYYY-MM-DD` date and title-type
= column 5, and every returned item carries both rating and rating date; if
any row's rating or rating-date field fails to parse, the whole call returns
a decode error (no partial item sequence). -/
theorem ratingsFeed_columns (res : HttpResponse) :
    (∀ items, readImdbRatingsResponse res = .ok items →
      items = (res.BodyCsv.drop 1).map ratingRowItem ∧
      ∀ it ∈ items, it.Rating.isSome = true ∧ it.RatingDate.isSome = true) ∧
    ((∀ r ∈ res.BodyCsv.drop 1, 6 ≤ r.length) → res.BodyCsvError = false →
      (∃ r ∈ res.BodyCsv.drop 1, (ratingRowItem r).Rating.isSome = false ∨
        (ratingRowItem r).RatingDate.isSome = false) →
      ∃ e, readImdbRatingsResponse res = .err e) := by
  constructor
  · intro items h
    unfold readImdbRatingsResponse at h
    cases hE : res.BodyCsvError with
    | true =>
      rw [hE] at h
      simp only [if_true] at h
      cases h
    | false =>
      rw [hE] at h
      simp only [Bool.false_eq_true, if_false] at h
      obtain ⟨hitems, hall⟩ := ratingsLoop_ok _ [] _ h
      rw [List.nil_append] at hitems
      refine ⟨hitems, ?_⟩
      intro it hit
      rw [hitems] at hit
      obtain ⟨r, hrmem, hr⟩ := List.mem_map.mp hit
      rw [← hr]
      exact hall r hrmem
  · intro hlen hE hbad
    unfold readImdbRatingsResponse
    rw [hE]
    simp only [Bool.false_eq_true, if_false]
    exact ratingsLoop_err_of_badparse _ [] hlen hbad

def c2res : HttpResponse :=
  { BodyCsv := [["Const", "Your Rating", "Date Rated", "Title", "URL", "Title Type"],
                ["tt0111161", "9", "2022-05-01", "The Shawshank Redemption", "u", "movie"]] }

def c2resBad : HttpResponse :=
  { BodyCsv := [["Const", "Your Rating", "Date Rated", "Title", "URL", "Title Type"],
                ["tt0111161", "9", "not-a-date", "The Shawshank Redemption", "u", "movie"]] }

theorem ratingsFeed_columns_witness :
    (∃ items, readImdbRatingsResponse c2res = .ok items ∧
      items = [{ Id := "tt0111161", TitleType := "movie", Rating := some 9,
                 RatingDate := some ⟨2022, 5, 1⟩ }] ∧
      ∀ it ∈ items, it.Rating.isSome = true ∧ it.RatingDate.isSome = true) ∧
    (∃ e, readImdbRatingsResponse c2resBad = .err e) := by
  constructor
  · have hok : readImdbRatingsResponse c2res =
        .ok [{ Id := "tt0111161", TitleType := "movie", Rating := some 9,
               RatingDate := some ⟨2022, 5, 1⟩ }] := by rfl
    refine ⟨_, hok, rfl, ?_⟩
    exact ((ratingsFeed_columns c2res).1 _ hok).2
  · refine (ratingsFeed_columns c2resBad).2 (by decide) rfl ?_
    refine ⟨["tt0111161", "9", "not-a-date", "The Shawshank Redemption", "u", "movie"],
      by decide, Or.inr (by decide)⟩

/-- C10 (amended): the CSV decoders use unchecked positional access: the list
decode panics exactly when some non-header row has fewer than 8 fields, and
the ratings decode never panics when every non-header row has at least 6
fields, while a ratings panic implies some non-header row has fewer than 6
fields (a short ratings row whose rating or date field already fails to parse
returns that decode error instead). -/
theorem csvBounds_amended (res res2 : HttpResponse) (listId : String)
    (hE : res.BodyCsvError = false) (hE2 : res2.BodyCsvError = false) :
    (readImdbListResponse res listId = .panic ↔ ∃ r ∈ res.BodyCsv.drop 1, r.length < 8) ∧
    ((∀ r ∈ res2.BodyCsv.drop 1, 6 ≤ r.length) → readImdbRatingsResponse res2 ≠ .panic) ∧
    (readImdbRatingsResponse res2 = .panic → ∃ r ∈ res2.BodyCsv.drop 1, r.length < 6) := by
  refine ⟨readImdbListResponse_panic_iff res listId hE, ?_, ?_⟩
  · intro hlen
    unfold readImdbRatingsResponse
    rw [hE2]
    simp only [Bool.false_eq_true, if_false]
    exact ratingsLoop_no_panic _ [] hlen
  · intro h
    unfold readImdbRatingsResponse at h
    rw [hE2] at h
    simp only [Bool.false_eq_true, if_false] at h
    exact ratingsLoop_panic_short _ [] h

def c10shortList : HttpResponse := { BodyCsv := [["h"], ["a", "b"]] }

def c10shortRatings : HttpResponse := { BodyCsv := [["h"], ["tt1", "9", "2022-05-01", "x", "y"]] }

def c10okRatings : HttpResponse := { BodyCsv := [["h"], ["tt1", "9", "2022-05-01", "x", "y", "movie"]] }

theorem csvBounds_amended_witness :
    readImdbListResponse c10shortList "ls1" = .panic ∧
    readImdbRatingsResponse c10okRatings ≠ .panic ∧
    readImdbRatingsResponse c10shortRatings = .panic := by
  refine ⟨?_, ?_, by rfl⟩
  · exact (csvBounds_amended c10shortList c10okRatings "ls1" rfl rfl).1.mpr
      ⟨["a", "b"], by decide, by decide⟩
  · exact (csvBounds_amended c10shortList c10okRatings "ls1" rfl rfl).2.1 (by decide)

/-- C10 (counterexample): a ratings data row shorter than 6 fields whose
rating field fails integer parsing makes the decode return a decode error —
the call does return, rather than panicking on the missing columns. -/
theorem csvBounds_cex :
    readImdbRatingsResponse { BodyCsv := [["h"], ["x", "abc"]] } =
      .err (.genericError "failure parsing imdb rating value to integer") ∧
    (["x", "abc"] : List String).length < 6 := ⟨by rfl, by decide⟩

/-- C3 (amended): a successful `fetchList` decode requires a non-empty
`Content-Disposition` header that parses as a media type with at least one
parameter (anything else is a fatal decode error, given well-formed rows);
the display name is the `filename` parameter's value — the empty string when
that parameter is absent — cut at the first `'.'`, and the slug is
`normalizeSlug` of the display name. -/
theorem contentDisposition_amended (res : HttpResponse) (listId : String) :
    (∀ l, readImdbListResponse res listId = .ok l →
      res.ContentDisposition ≠ "" ∧
      ∃ mt params, goParseMediaType res.ContentDisposition = .ok (mt, params) ∧ params ≠ [] ∧
        l.ListName = (goSplitDot (lookupParam params "filename")).headD "" ∧
        l.TraktListSlug = buildTraktListName l.ListName) ∧
    (res.BodyCsvError = false → (∀ r ∈ res.BodyCsv.drop 1, 8 ≤ r.length) →
      (res.ContentDisposition = "" ∨ (∃ e, goParseMediaType res.ContentDisposition = .error e) ∨
        (∃ mt, goParseMediaType res.ContentDisposition = .ok (mt, []))) →
      ∃ msg, readImdbListResponse res listId = .err (.genericError msg)) := by
  constructor
  · intro l h
    obtain ⟨-, -, hCD, mt, params, hPM, hne, hname, hslug, -, -⟩ := readImdbListResponse_ok_inv h
    exact ⟨hCD, mt, params, hPM, hne, hname, hslug⟩
  · intro hE hlen hbad
    obtain ⟨items, hLoop⟩ : ∃ items, listRowsLoop (res.BodyCsv.drop 1) [] = .ok items := by
      cases hLoop : listRowsLoop (res.BodyCsv.drop 1) [] with
      | ok items => exact ⟨items, rfl⟩
      | err e => exact absurd hLoop (listRowsLoop_no_err _ _ e)
      | panic =>
        obtain ⟨r, hr, hrlen⟩ := (listRowsLoop_panic_iff _ []).mp hLoop
        have := hlen r hr
        omega
    unfold readImdbListResponse
    rw [hE]
    simp only [Bool.false_eq_true, if_false, hLoop]
    rcases hbad with hcd | ⟨e, hpm⟩ | ⟨mt, hpm⟩
    · rw [if_pos hcd]
      exact ⟨_, rfl⟩
    · by_cases hcd : res.ContentDisposition = ""
      · rw [if_pos hcd]
        exact ⟨_, rfl⟩
      · rw [if_neg hcd, hpm]
        exact ⟨_, rfl⟩
    · by_cases hcd : res.ContentDisposition = ""
      · rw [if_pos hcd]
        exact ⟨_, rfl⟩
      · rw [if_neg hcd, hpm]
        exact ⟨_, rfl⟩

theorem contentDisposition_amended_witness :
    ∃ l, readImdbListResponse c7res "ls1" = .ok l ∧
      l.ListName = "My Watchlist" ∧ l.TraktListSlug = "my-watchlist" ∧ l.ListItems.length = 2 := by
  have hok : readImdbListResponse c7res "ls1" =
      .ok { ListName := "My Watchlist", ListId := "ls1",
            ListItems := [{ Id := "tt0111161", TitleType := "movie" },
                          { Id := "tt0068646", TitleType := "movie" }],
            TraktListSlug := "my-watchlist", IsWatchlist := false } := by rfl
  obtain ⟨hCD, mt, params, hPM, hne, hname, hslug⟩ :=
    (contentDisposition_amended c7res "ls1").1 _ hok
  have hPM2 : goParseMediaType c7res.ContentDisposition =
      .ok ("attachment", [("filename", "My Watchlist.csv")]) := by rfl
  rw [hPM2] at hPM
  cases hPM
  refine ⟨_, hok, ?_, ?_, by rfl⟩
  · rw [hname]
    rfl
  · rw [hslug, hname]
    rfl

def c3res : HttpResponse :=
  { BodyCsv := [["h0", "h1", "h2", "h3", "h4", "h5", "h6", "h7"],
                ["1", "tt1", "c", "m", "", "T", "u", "movie"]],
    ContentDisposition := "attachment; foo=bar" }

/-- C3 (counterexample): a list-export response whose `Content-Disposition`
parameters lack a `filename` parameter still decodes successfully (with an
empty display name); the code only requires a non-empty parameter list, not
the `filename` parameter the claim demands. -/
theorem contentDisposition_cex :
    goParseMediaType "attachment; foo=bar" = .ok ("attachment", [("foo", "bar")]) ∧
    readImdbListResponse c3res "ls1" =
      .ok { ListName := "", ListId := "ls1",
            ListItems := [{ Id := "tt1", TitleType := "movie" }],
            TraktListSlug := "", IsWatchlist := false } := ⟨by rfl, by rfl⟩

/-! ### Operation-level lemmas -/

theorem listsEach_cons_none (w : ImdbWorld) (rest : List (Option String)) (acc : List ImdbList) :
    listsEach w (none :: rest) acc = listsEach w rest acc := rfl

theorem listsEach_cons_some (w : ImdbWorld) (listId : String) (rest : List (Option String))
    (acc : List ImdbList) :
    listsEach w (some listId :: rest) acc =
      match ListGet w listId with
      | .panic => .panic
      | .err _ => listsEach w rest acc
      | .ok list =>
        listsEach w rest (acc ++ [{ list with TraktListSlug := buildTraktListName list.ListName }]) := rfl

theorem listsEach_skip_err (w : ImdbWorld) (listId : String) (rest : List (Option String))
    (acc : List ImdbList) (e : ImdbError) (h : ListGet w listId = .err e) :
    listsEach w (some listId :: rest) acc = listsEach w rest acc := by
  rw [listsEach_cons_some, h]

theorem listsEach_ok (w : ImdbWorld) : ∀ (opts : List (Option String)) (acc l : List ImdbList),
    listsEach w opts acc = .ok l → l = acc ++ opts.filterMap (discoveredItem w)
  | [], acc, l, h => by
    cases h
    simp [listsEach]
  | none :: rest, acc, l, h => by
    rw [listsEach_cons_none] at h
    rw [listsEach_ok w rest acc l h]
    rfl
  | some listId :: rest, acc, l, h => by
    rw [listsEach_cons_some] at h
    cases hLG : ListGet w listId with
    | panic =>
      simp only [hLG] at h
      cases h
    | err e =>
      simp only [hLG] at h
      rw [listsEach_ok w rest acc l h, List.filterMap_cons]
      have hdi : discoveredItem w (some listId) = none := by
        simp only [discoveredItem, hLG]
      rw [hdi]
    | ok list =>
      simp only [hLG] at h
      rw [listsEach_ok w rest _ l h, List.filterMap_cons]
      have hdi : discoveredItem w (some listId) =
          some { list with TraktListSlug := buildTraktListName list.ListName } := by
        simp only [discoveredItem, hLG]
      rw [hdi, List.append_assoc, List.singleton_append]

/-- The authorization `ApiError` produced on HTTP 403. -/
def imdbAuthError : ImdbError :=
  .apiError 403 "imdb authorization failure - update the imdb cookie values"

theorem doRequest_403 (response : HttpResponse) (h : response.StatusCode = 403) :
    doRequest response = .err imdbAuthError := by
  unfold doRequest imdbAuthError
  rw [h]
  simp

theorem ListGet_403 (w : ImdbWorld) (listId : String)
    (h : (w.respond (listExportUrl listId)).StatusCode = 403) :
    ListGet w listId = .err imdbAuthError := by
  unfold ListGet
  rw [doRequest_403 _ h]

/-- C1 (amended): an HTTP 403 on the request of `fetchList`, `fetchWatchlist`,
`fetchRatings`, `resolveAccountId`, `resolveWatchlistId`, or on the
lists-overview request of `fetchAllLists`, fails that operation with the
authorization `ApiError` (so no data is returned at all); but a 403 on an
individual list-export during the catalog scan is logged and that list is
skipped, like any other per-list failure, and the scan continues. -/
theorem forbidden_authorization (w : ImdbWorld) (config : ImdbConfig) (listId : String)
    (rest : List (Option String)) (acc : List ImdbList) :
    ((w.respond (listExportUrl listId)).StatusCode = 403 →
      ListGet w listId = .err imdbAuthError) ∧
    ((w.respond (listExportUrl config.WatchlistId)).StatusCode = 403 →
      WatchlistGet w config = .err imdbAuthError) ∧
    ((w.respond (ratingsExportUrl config.UserId)).StatusCode = 403 →
      RatingsGet w config = .err imdbAuthError) ∧
    ((w.respond profileUrl).StatusCode = 403 →
      UserIdScrape w config = .err imdbAuthError) ∧
    ((w.respond watchlistUrl).StatusCode = 403 →
      WatchlistIdScrape w config = .err imdbAuthError) ∧
    ((w.respond (listsUrl config.UserId)).StatusCode = 403 →
      ListsGetAll w config = .err imdbAuthError) ∧
    ((w.respond (listExportUrl listId)).StatusCode = 403 →
      listsEach w (some listId :: rest) acc = listsEach w rest acc) := by
  refine ⟨ListGet_403 w listId, ?_, ?_, ?_, ?_, ?_, ?_⟩
  · intro h
    unfold WatchlistGet
    rw [ListGet_403 w config.WatchlistId h]
  · intro h
    unfold RatingsGet
    rw [doRequest_403 _ h]
  · intro h
    unfold UserIdScrape
    rw [doRequest_403 _ h]
  · intro h
    unfold WatchlistIdScrape
    rw [doRequest_403 _ h]
  · intro h
    unfold ListsGetAll
    rw [doRequest_403 _ h]
  · intro h
    exact listsEach_skip_err w listId rest acc imdbAuthError (ListGet_403 w listId h)

def w403 : ImdbWorld := { respond := fun _ => { StatusCode := 403 } }

theorem forbidden_authorization_witness :
    ListGet w403 "ls1" = .err imdbAuthError ∧
    WatchlistGet w403 { WatchlistId := "wl1" } = .err imdbAuthError ∧
    RatingsGet w403 { UserId := "u1" } = .err imdbAuthError ∧
    UserIdScrape w403 { UserId := "u1" } = .err imdbAuthError ∧
    WatchlistIdScrape w403 { UserId := "u1" } = .err imdbAuthError ∧
    ListsGetAll w403 { UserId := "u1" } = .err imdbAuthError := by
  have h := forbidden_authorization w403 { UserId := "u1", WatchlistId := "wl1" } "ls1" [] []
  exact ⟨h.1 rfl, h.2.1 rfl, h.2.2.1 rfl, h.2.2.2.1 rfl, h.2.2.2.2.1 rfl, h.2.2.2.2.2.1 rfl⟩

/-- The decoded form of the `c7res` list-export response. -/
def myWatchlistDecoded : ImdbList :=
  { ListName := "My Watchlist", ListId := "ls1",
    ListItems := [{ Id := "tt0111161", TitleType := "movie" },
                  { Id := "tt0068646", TitleType := "movie" }],
    TraktListSlug := "my-watchlist", IsWatchlist := false }

def c1world : ImdbWorld :=
  { respond := fun url =>
      if url = listsUrl "u1" then { StatusCode := 200, BodyUserLists := [some "ls1", some "ls2"] }
      else if url = listExportUrl "ls1" then c7res
      else if url = listExportUrl "ls2" then { StatusCode := 403 }
      else { StatusCode := 200 } }

/-- C1 (counterexample): the catalog scan meets a 403 on list `ls2` yet
returns success, silently omitting that list from the sequence. -/
theorem forbidden_authorization_cex :
    (c1world.respond (listExportUrl "ls2")).StatusCode = 403 ∧
    ListsGetAll c1world { UserId := "u1" } = .ok [myWatchlistDecoded] := ⟨by rfl, by rfl⟩

/-- C4: a 404 on a list export fails `fetchList` with the list-not-found
`ApiError` naming the list id, while during the catalog scan any `ListGet`
error (the 404 included) only skips that list and the scan continues. -/
theorem listNotFound_404 (w : ImdbWorld) (listId : String) (rest : List (Option String))
    (acc : List ImdbList) :
    ((w.respond (listExportUrl listId)).StatusCode = 404 →
      ListGet w listId = .err (.apiError 404 ("list with id " ++ listId ++ " could not be found"))) ∧
    (∀ e, ListGet w listId = .err e →
      listsEach w (some listId :: rest) acc = listsEach w rest acc) := by
  constructor
  · intro h
    unfold ListGet doRequest
    simp [h]
  · intro e h
    exact listsEach_skip_err w listId rest acc e h

def c4world : ImdbWorld :=
  { respond := fun url =>
      if url = listsUrl "u1" then
        { StatusCode := 200, BodyUserLists := [some "nonexistent", some "ls1"] }
      else if url = listExportUrl "ls1" then c7res
      else if url = listExportUrl "nonexistent" then { StatusCode := 404 }
      else { StatusCode := 200 } }

theorem listNotFound_404_witness :
    ListGet c4world "nonexistent" =
      .err (.apiError 404 "list with id nonexistent could not be found") ∧
    listsEach c4world [some "nonexistent", some "ls1"] [] =
      listsEach c4world [some "ls1"] [] ∧
    ListsGetAll c4world { UserId := "u1" } = .ok [myWatchlistDecoded] := by
  have h := listNotFound_404 c4world "nonexistent" [some "ls1"] []
  have h404 : ListGet c4world "nonexistent" =
      .err (.apiError 404 "list with id nonexistent could not be found") := h.1 (by rfl)
  exact ⟨h404, h.2 _ h404, by rfl⟩

/-- C8: a lists-overview page with zero `.user-list` elements makes
`fetchAllLists` succeed with the empty sequence, and any successful result
lists the decodable discovered ids in document order. -/
theorem fetchAllLists_empty_order (w : ImdbWorld) (config : ImdbConfig) :
    ((w.respond (listsUrl config.UserId)).StatusCode = 200 →
      (w.respond (listsUrl config.UserId)).BodyUserLists = [] →
      ListsGetAll w config = .ok []) ∧
    (∀ l, ListsGetAll w config = .ok l →
      l = ((w.respond (listsUrl config.UserId)).BodyUserLists).filterMap (discoveredItem w)) := by
  constructor
  · intro h200 hempty
    unfold ListsGetAll doRequest
    simp [h200, hempty, listsEach]
  · intro l h
    unfold ListsGetAll doRequest at h
    by_cases h200 : (w.respond (listsUrl config.UserId)).StatusCode = 200
    · rw [if_pos h200] at h
      rw [listsEach_ok w _ [] l h, List.nil_append]
    · rw [if_neg h200] at h
      by_cases h403 : (w.respond (listsUrl config.UserId)).StatusCode = 403
      · rw [if_pos h403] at h
        simp at h
      · rw [if_neg h403] at h
        by_cases h404 : (w.respond (listsUrl config.UserId)).StatusCode = 404
        · rw [if_pos h404] at h
          rw [listsEach_ok w _ [] l h, List.nil_append]
        · rw [if_neg h404] at h
          simp at h

def c8world : ImdbWorld := { respond := fun _ => { StatusCode := 200 } }

theorem fetchAllLists_empty_order_witness :
    ListsGetAll c8world { UserId := "u1" } = .ok [] ∧
    [myWatchlistDecoded] =
      ((c1world.respond (listsUrl "u1")).BodyUserLists).filterMap (discoveredItem c1world) := by
  constructor
  · exact (fetchAllLists_empty_order c8world { UserId := "u1" }).1 rfl rfl
  · exact (fetchAllLists_empty_order c1world { UserId := "u1" }).2 _ (by rfl)

/-! ### Scrape inversion lemmas (for C9) -/

theorem UserIdScrape_ok_inv {w : ImdbWorld} {config c : ImdbConfig}
    (h : UserIdScrape w config = .ok c) :
    (w.respond profileUrl).BodyScrapeAttr = some c.UserId ∧
    c.WatchlistId = config.WatchlistId := by
  unfold UserIdScrape doRequest at h
  by_cases h200 : (w.respond profileUrl).StatusCode = 200
  · rw [if_pos h200] at h
    cases hattr : (w.respond profileUrl).BodyScrapeAttr with
    | none =>
      simp only [hattr, scrapeSelectionAttribute] at h
      cases h
    | some v =>
      simp only [hattr, scrapeSelectionAttribute] at h
      cases h
      exact ⟨rfl, rfl⟩
  · rw [if_neg h200] at h
    by_cases h403 : (w.respond profileUrl).StatusCode = 403
    · rw [if_pos h403] at h
      simp at h
    · rw [if_neg h403] at h
      by_cases h404 : (w.respond profileUrl).StatusCode = 404
      · rw [if_pos h404] at h
        cases hattr : (w.respond profileUrl).BodyScrapeAttr with
        | none =>
          simp only [hattr, scrapeSelectionAttribute] at h
          cases h
        | some v =>
          simp only [hattr, scrapeSelectionAttribute] at h
          cases h
          exact ⟨rfl, rfl⟩
      · rw [if_neg h404] at h
        simp at h

theorem WatchlistIdScrape_ok_inv {w : ImdbWorld} {config c : ImdbConfig}
    (h : WatchlistIdScrape w config = .ok c) :
    (w.respond watchlistUrl).BodyScrapeAttr = some c.WatchlistId ∧
    c.UserId = config.UserId := by
  unfold WatchlistIdScrape doRequest at h
  by_cases h200 : (w.respond watchlistUrl).StatusCode = 200
  · rw [if_pos h200] at h
    cases hattr : (w.respond watchlistUrl).BodyScrapeAttr with
    | none =>
      simp only [hattr, scrapeSelectionAttribute] at h
      cases h
    | some v =>
      simp only [hattr, scrapeSelectionAttribute] at h
      cases h
      exact ⟨rfl, rfl⟩
  · rw [if_neg h200] at h
    by_cases h403 : (w.respond watchlistUrl).StatusCode = 403
    · rw [if_pos h403] at h
      simp at h
    · rw [if_neg h403] at h
      by_cases h404 : (w.respond watchlistUrl).StatusCode = 404
      · rw [if_pos h404] at h
        cases hattr : (w.respond watchlistUrl).BodyScrapeAttr with
        | none =>
          simp only [hattr, scrapeSelectionAttribute] at h
          cases h
        | some v =>
          simp only [hattr, scrapeSelectionAttribute] at h
          cases h
          exact ⟨rfl, rfl⟩
      · rw [if_neg h404] at h
        simp at h

theorem NewImdbClient_ok_inv {w : ImdbWorld} {config c : ImdbConfig}
    (h : NewImdbClient w config = .ok c) : hydrate w config = .ok c := by
  unfold NewImdbClient at h
  cases hh : hydrate w config with
  | ok c2 =>
    simp only [hh] at h
    cases h
    rfl
  | err e =>
    simp only [hh] at h
    cases h
  | panic =>
    simp only [hh] at h
    cases h

theorem hydrate_ok_inv {w : ImdbWorld} {config c : ImdbConfig}
    (h : hydrate w config = .ok c) :
    ((config.UserId = "" ∨ config.UserId = "scrape") →
      ∃ c2, UserIdScrape w config = .ok c2 ∧ WatchlistIdScrape w c2 = .ok c) ∧
    (¬(config.UserId = "" ∨ config.UserId = "scrape") →
      WatchlistIdScrape w config = .ok c) := by
  unfold hydrate at h
  by_cases htr : config.UserId = "" ∨ config.UserId = "scrape"
  · rw [if_pos htr] at h
    cases hUS : UserIdScrape w config with
    | ok c2 =>
      simp only [hUS] at h
      cases hWS : WatchlistIdScrape w c2 with
      | ok c3 =>
        simp only [hWS] at h
        cases h
        exact ⟨fun _ => ⟨c2, rfl, hWS⟩, fun hno => absurd htr hno⟩
      | err e =>
        simp only [hWS] at h
        cases h
      | panic =>
        simp only [hWS] at h
        cases h
    | err e =>
      simp only [hUS] at h
      cases h
    | panic =>
      simp only [hUS] at h
      cases h
  · rw [if_neg htr] at h
    cases hWS : WatchlistIdScrape w config with
    | ok c3 =>
      simp only [hWS] at h
      cases h
      exact ⟨fun hyes => absurd hyes htr, fun _ => rfl⟩
    | err e =>
      simp only [hWS] at h
      cases h
    | panic =>
      simp only [hWS] at h
      cases h

/-- C9: on construction, the account id is scraped exactly when the
configured value is `""` or `"scrape"` (otherwise it is kept unchanged), the
watchlist id is always (re)scraped, and a failing resolution fails the
construction. -/
theorem hydrate_policy (w : ImdbWorld) (config : ImdbConfig) :
    ((config.UserId ≠ "" ∧ config.UserId ≠ "scrape") →
      (∀ c, NewImdbClient w config = .ok c → c.UserId = config.UserId) ∧
      (∀ e, WatchlistIdScrape w config = .err e →
        NewImdbClient w config = .err (.wrapped "failure hydrating imdb client"
          (.wrapped "failure scraping imdb watchlist id" e)))) ∧
    ((config.UserId = "" ∨ config.UserId = "scrape") →
      (∀ c, NewImdbClient w config = .ok c →
        (w.respond profileUrl).BodyScrapeAttr = some c.UserId) ∧
      (∀ e, UserIdScrape w config = .err e →
        NewImdbClient w config = .err (.wrapped "failure hydrating imdb client"
          (.wrapped "failure scraping imdb user id" e)))) ∧
    (∀ c, NewImdbClient w config = .ok c →
      (w.respond watchlistUrl).BodyScrapeAttr = some c.WatchlistId) := by
  refine ⟨?_, ?_, ?_⟩
  · intro htr
    have hnor : ¬(config.UserId = "" ∨ config.UserId = "scrape") := by
      intro hor
      rcases hor with h | h
      · exact htr.1 h
      · exact htr.2 h
    constructor
    · intro c hNew
      have hw := (hydrate_ok_inv (NewImdbClient_ok_inv hNew)).2 hnor
      exact (WatchlistIdScrape_ok_inv hw).2
    · intro e hW
      have hhy : hydrate w config =
          .err (.wrapped "failure scraping imdb watchlist id" e) := by
        unfold hydrate
        rw [if_neg hnor]
        simp only [hW]
      unfold NewImdbClient
      rw [hhy]
  · intro htr
    constructor
    · intro c hNew
      obtain ⟨c2, hUS, hWS⟩ := (hydrate_ok_inv (NewImdbClient_ok_inv hNew)).1 htr
      have h1 := (UserIdScrape_ok_inv hUS).1
      have h2 := (WatchlistIdScrape_ok_inv hWS).2
      rw [h1, h2]
    · intro e hU
      have hhy : hydrate w config =
          .err (.wrapped "failure scraping imdb user id" e) := by
        unfold hydrate
        rw [if_pos htr]
        simp only [hU]
      unfold NewImdbClient
      rw [hhy]
  · intro c hNew
    have hh := NewImdbClient_ok_inv hNew
    by_cases htr : config.UserId = "" ∨ config.UserId = "scrape"
    · obtain ⟨c2, hUS, hWS⟩ := (hydrate_ok_inv hh).1 htr
      exact (WatchlistIdScrape_ok_inv hWS).1
    · exact (WatchlistIdScrape_ok_inv ((hydrate_ok_inv hh).2 htr)).1

def c9world : ImdbWorld :=
  { respond := fun url =>
      if url = profileUrl then { StatusCode := 200, BodyScrapeAttr := some "ur1" }
      else if url = watchlistUrl then { StatusCode := 200, BodyScrapeAttr := some "wl9" }
      else { StatusCode := 200 } }

def c9worldNoAttr : ImdbWorld := { respond := fun _ => { StatusCode := 200 } }

theorem hydrate_policy_witness :
    (({ UserId := "u7", WatchlistId := "wl9" } : ImdbConfig).UserId = "u7") ∧
    ((c9world.respond profileUrl).BodyScrapeAttr =
      some ({ UserId := "ur1", WatchlistId := "wl9" } : ImdbConfig).UserId) ∧
    ((c9world.respond watchlistUrl).BodyScrapeAttr =
      some ({ UserId := "u7", WatchlistId := "wl9" } : ImdbConfig).WatchlistId) ∧
    NewImdbClient c9worldNoAttr { UserId := "" } =
      .err (.wrapped "failure hydrating imdb client" (.wrapped "failure scraping imdb user id"
        (.wrapped "imdb user id not found" (.genericError "selection not found")))) := by
  refine ⟨?_, ?_, ?_, ?_⟩
  · exact ((hydrate_policy c9world { UserId := "u7" }).1 ⟨by decide, by decide⟩).1 _ (by rfl)
  · exact ((hydrate_policy c9world { UserId := "scrape" }).2.1 (Or.inr rfl)).1 _ (by rfl)
  · exact (hydrate_policy c9world { UserId := "u7" }).2.2 _ (by rfl)
  · exact ((hydrate_policy c9worldNoAttr { UserId := "" }).2.1 (Or.inl rfl)).2 _ (by rfl)
